import Mathlib

/-!
Shallow embedding of the Response Sectionizer of the Conscious Day Agent
repository (`_parse_response` in `agent/conscious_agent.py`), together with
theorems about it.

Strings are modelled as `List Char`.  The Python string operations used by
`_parse_response` — `str.split('**')`, `str.strip()`, `str.upper()`,
substring containment (`in`), `str.replace(old, '')`, `startswith`,
`endswith` and the slice `s[1:-1]` — are each given a faithful executable
definition below.
-/

namespace Sectionizer

/-- Python `str.isspace` on the characters `str.strip()` removes:
space, tab, newline, carriage return, vertical tab, form feed. -/
def pyIsSpace (c : Char) : Bool :=
  c == ' ' || c == '\t' || c == '\n' || c == '\r' || c.toNat == 11 || c.toNat == 12

/-- Remove leading characters satisfying `pyIsSpace` (Python `lstrip()`). -/
def lstrip : List Char → List Char
  | [] => []
  | c :: rest => if pyIsSpace c then lstrip rest else c :: rest

/-- Remove trailing whitespace (Python `rstrip()`). -/
def rstrip (s : List Char) : List Char :=
  (lstrip s.reverse).reverse

/-- Python `str.strip()`: remove leading and trailing whitespace. -/
def pyStrip (s : List Char) : List Char :=
  rstrip (lstrip s)

/-- Python `str.upper()` (character-wise; all strings involved are ASCII). -/
def pyUpper (s : List Char) : List Char :=
  s.map Char.toUpper

/-- Python `response.split('**')`: split on every non-overlapping occurrence
of the two-character marker `**`, scanning left to right. -/
def splitStars : List Char → List (List Char)
  | [] => [[]]
  | '*' :: '*' :: rest => [] :: splitStars rest
  | c :: rest =>
    match splitStars rest with
    | [] => [[c]]
    | f :: fs => (c :: f) :: fs

/-- Python `needle in hay`: substring containment. -/
def containsSub (hay needle : List Char) : Bool :=
  match hay with
  | [] => needle.isEmpty
  | _ :: rest => needle.isPrefixOf hay || containsSub rest needle

/-- One scanning pass of Python `s.replace(old, '')` with a fuel argument
(`fuel ≥ s.length` makes it total): on a match skip `old.length` characters,
otherwise emit one character and continue. -/
def replaceDelFuel (old : List Char) : Nat → List Char → List Char
  | 0, s => s
  | _, [] => []
  | fuel + 1, c :: rest =>
    if old.isPrefixOf (c :: rest) then
      replaceDelFuel old fuel (rest.drop (old.length - 1))
    else
      c :: replaceDelFuel old fuel rest

/-- Python `s.replace(old, '')`: delete every non-overlapping occurrence of
`old` in `s`, scanning left to right (only used with non-empty `old`). -/
def replaceDel (old s : List Char) : List Char :=
  replaceDelFuel old s.length s

/-- The four dictionary keys of the `sections` dict. -/
inductive SectionKey where
  | reflection
  | dream_interpretation
  | mindset_insight
  | strategy
deriving DecidableEq, Repr

/-- The `sections` dictionary: four fixed keys, each holding a string. -/
structure Sections where
  reflection : List Char
  dream_interpretation : List Char
  mindset_insight : List Char
  strategy : List Char
deriving DecidableEq, Repr

/-- The all-empty initial `sections` dictionary. -/
def Sections.init : Sections := ⟨[], [], [], []⟩

/-- Read `sections[key]`. -/
def Sections.get (s : Sections) : SectionKey → List Char
  | .reflection => s.reflection
  | .dream_interpretation => s.dream_interpretation
  | .mindset_insight => s.mindset_insight
  | .strategy => s.strategy

/-- Write `sections[key] = v`. -/
def Sections.set (s : Sections) : SectionKey → List Char → Sections
  | .reflection, v => { s with reflection := v }
  | .dream_interpretation, v => { s with dream_interpretation := v }
  | .mindset_insight, v => { s with mindset_insight := v }
  | .strategy, v => { s with strategy := v }

/-- `'INNER REFLECTION:'` -/
def lblReflU : List Char := "INNER REFLECTION:".toList
/-- `'Inner Reflection:'` -/
def lblReflT : List Char := "Inner Reflection:".toList
/-- `'DREAM INTERPRETATION:'` -/
def lblDreamU : List Char := "DREAM INTERPRETATION:".toList
/-- `'Dream Interpretation:'` -/
def lblDreamT : List Char := "Dream Interpretation:".toList
/-- `'MINDSET INSIGHT:'` -/
def lblMindU : List Char := "MINDSET INSIGHT:".toList
/-- `'Mindset Insight:'` -/
def lblMindT : List Char := "Mindset Insight:".toList
/-- `'DAY STRATEGY:'` -/
def lblStratU : List Char := "DAY STRATEGY:".toList
/-- `'Day Strategy:'` -/
def lblStratT : List Char := "Day Strategy:".toList

/-- The `any(header in part.upper() for header in [...])` test of the
continuation branch. -/
def anyHeader (u : List Char) : Bool :=
  containsSub u lblReflU || containsSub u lblDreamU ||
  containsSub u lblMindU || containsSub u lblStratU

/-- The loop body of `_parse_response`: process one fragment `part0`,
updating the `(sections, current_section)` state. -/
def processPart (st : Sections × Option SectionKey) (part0 : List Char) :
    Sections × Option SectionKey :=
  let part := pyStrip part0
  let up := pyUpper part
  if containsSub up lblReflU then
    let content := pyStrip (replaceDel lblReflT (replaceDel lblReflU part))
    (st.1.set .reflection content, some .reflection)
  else if containsSub up lblDreamU then
    let content := pyStrip (replaceDel lblDreamT (replaceDel lblDreamU part))
    (st.1.set .dream_interpretation content, some .dream_interpretation)
  else if containsSub up lblMindU then
    let content := pyStrip (replaceDel lblMindT (replaceDel lblMindU part))
    (st.1.set .mindset_insight content, some .mindset_insight)
  else if containsSub up lblStratU then
    let content := pyStrip (replaceDel lblStratT (replaceDel lblStratU part))
    (st.1.set .strategy content, some .strategy)
  else
    match st.2 with
    | none => st
    | some k =>
      if !part.isEmpty && !anyHeader up then
        if (st.1.get k).isEmpty then
          (st.1.set k part, st.2)
        else
          (st.1.set k (st.1.get k ++ ' ' :: part), st.2)
      else
        st

/-- The final clean-up applied to every section: strip, and if the value is
wrapped in `[` … `]`, drop one character from each end and strip again. -/
def cleanup (v : List Char) : List Char :=
  let v := pyStrip v
  if v.head? == some '[' && v.getLast? == some ']' then
    pyStrip ((v.drop 1).dropLast)
  else
    v

/-- `_parse_response`: split on `**`, scan the fragments, clean up. -/
def parseResponse (response : List Char) : Sections :=
  let parts := splitStars response
  let st := parts.foldl processPart (Sections.init, none)
  { reflection := cleanup st.1.reflection
    dream_interpretation := cleanup st.1.dream_interpretation
    mindset_insight := cleanup st.1.mindset_insight
    strategy := cleanup st.1.strategy }

/-!
A second rendering of the same function in which the `sections` dictionary is
modelled as an association list of string keys (as the Python `dict` really
is), and the dictionary *reads* of the continuation branch
(`if sections[current_section]:` / `sections[current_section] += …`) are
modelled as fallible lookups: a missing key — Python's `KeyError` — yields
`none`.  Dictionary *assignment* never fails in Python, so `setA` totally
inserts or updates.  This rendering makes "the returned mapping has exactly
the four keys" and "no error branch is reachable" provable statements.
-/

/-- The key strings of the `sections` dictionary. -/
def keyName : SectionKey → List Char
  | .reflection => "reflection".toList
  | .dream_interpretation => "dream_interpretation".toList
  | .mindset_insight => "mindset_insight".toList
  | .strategy => "strategy".toList

/-- The Python `dict` as an association list. -/
abbrev Assoc := List (List Char × List Char)

/-- Dictionary read `d[key]`; `none` models a `KeyError`. -/
def lookupA : Assoc → List Char → Option (List Char)
  | [], _ => none
  | (k, v) :: rest, key => if k == key then some v else lookupA rest key

/-- Dictionary assignment `d[key] = v`: update in place, or append a new
key (Python dicts preserve insertion order). -/
def setA : Assoc → List Char → List Char → Assoc
  | [], key, v => [(key, v)]
  | (k, w) :: rest, key, v =>
    if k == key then (k, v) :: rest else (k, w) :: setA rest key v

/-- The initial dictionary literal of `_parse_response`. -/
def initAssoc : Assoc :=
  [("reflection".toList, []), ("dream_interpretation".toList, []),
   ("mindset_insight".toList, []), ("strategy".toList, [])]

/-- The loop body of `_parse_response` over the association-list dictionary,
with the continuation branch's dictionary read modelled as fallible. -/
def processPartD (st : Assoc × Option (List Char)) (part0 : List Char) :
    Option (Assoc × Option (List Char)) :=
  let part := pyStrip part0
  let up := pyUpper part
  if containsSub up lblReflU then
    let content := pyStrip (replaceDel lblReflT (replaceDel lblReflU part))
    some (setA st.1 (keyName .reflection) content, some (keyName .reflection))
  else if containsSub up lblDreamU then
    let content := pyStrip (replaceDel lblDreamT (replaceDel lblDreamU part))
    some (setA st.1 (keyName .dream_interpretation) content,
      some (keyName .dream_interpretation))
  else if containsSub up lblMindU then
    let content := pyStrip (replaceDel lblMindT (replaceDel lblMindU part))
    some (setA st.1 (keyName .mindset_insight) content,
      some (keyName .mindset_insight))
  else if containsSub up lblStratU then
    let content := pyStrip (replaceDel lblStratT (replaceDel lblStratU part))
    some (setA st.1 (keyName .strategy) content, some (keyName .strategy))
  else
    match st.2 with
    | none => some st
    | some ck =>
      if !part.isEmpty && !anyHeader up then
        match lookupA st.1 ck with
        | none => none
        | some v =>
          if v.isEmpty then some (setA st.1 ck part, st.2)
          else some (setA st.1 ck (v ++ ' ' :: part), st.2)
      else
        some st

/-- The fragment loop over the association-list dictionary, propagating a
`KeyError`. -/
def foldPartsD : Assoc × Option (List Char) → List (List Char) →
    Option (Assoc × Option (List Char))
  | st, [] => some st
  | st, p :: ps =>
    match processPartD st p with
    | none => none
    | some st' => foldPartsD st' ps

/-- `_parse_response` over the association-list dictionary: the final
clean-up loop iterates over the dictionary's own keys, so it is a map. -/
def parseResponseChecked (response : List Char) : Option Assoc :=
  match foldPartsD (initAssoc, none) (splitStars response) with
  | none => none
  | some st => some (st.1.map fun kv => (kv.1, cleanup kv.2))

/-- The association list holding the four fields of a `Sections` value under
their Python key strings, in the dictionary's insertion order. -/
def toAssoc (s : Sections) : Assoc :=
  [(keyName .reflection, s.reflection),
   (keyName .dream_interpretation, s.dream_interpretation),
   (keyName .mindset_insight, s.mindset_insight),
   (keyName .strategy, s.strategy)]

/-! ### Basic properties of the string primitives -/

theorem lstrip_suffix (s : List Char) : lstrip s <:+ s := by
  induction s with
  | nil => exact List.suffix_refl []
  | cons c rest ih =>
    by_cases h : pyIsSpace c
    · simpa [lstrip, h] using ih.trans (List.suffix_cons c rest)
    · simp [lstrip, h]

theorem rstrip_front (s : List Char) : rstrip s <+: s := by
  have h := ( List.reverse_prefix).mpr (lstrip_suffix s.reverse)
  simpa [rstrip] using h

theorem pyStrip_within (s : List Char) : pyStrip s <:+: s :=
  (rstrip_front (lstrip s)).isInfix.trans (lstrip_suffix s).isInfix

theorem containsSub_iff (hay needle : List Char) :
    containsSub hay needle = true ↔ needle <:+: hay := by
  induction hay with
  | nil => simp [containsSub, List.isEmpty_iff, List.infix_nil]
  | cons c rest ih =>
    simp [containsSub, List.isPrefixOf_iff_prefix, ih, List.infix_cons_iff]

theorem containsSub_false_of_within {hay h' needle : List Char}
    (h : containsSub hay needle = false) (hi : h' <:+: hay) :
    containsSub h' needle = false := by
  by_contra hc
  have ht : containsSub h' needle = true := by
    cases hq : containsSub h' needle
    · exact absurd hq hc
    · rfl
  have : containsSub hay needle = true :=
    (containsSub_iff hay needle).mpr (((containsSub_iff h' needle).mp ht).trans hi)
  rw [this] at h
  exact absurd h (by simp)

theorem anyHeader_false_of_within {b b' : List Char} (hi : b' <:+: b)
    (h : anyHeader (pyUpper b) = false) : anyHeader (pyUpper b') = false := by
  simp only [anyHeader, Bool.or_eq_false_iff] at h ⊢
  obtain ⟨⟨⟨h1, h2⟩, h3⟩, h4⟩ := h
  have him : pyUpper b' <:+: pyUpper b := hi.map Char.toUpper
  exact ⟨⟨⟨containsSub_false_of_within h1 him, containsSub_false_of_within h2 him⟩,
    containsSub_false_of_within h3 him⟩, containsSub_false_of_within h4 him⟩

theorem anyHeader_strip {b : List Char} (h : anyHeader (pyUpper b) = false) :
    anyHeader (pyUpper (pyStrip b)) = false :=
  anyHeader_false_of_within (pyStrip_within b) h

theorem lstrip_head (s : List Char) : ∀ c ∈ (lstrip s).head?, pyIsSpace c = false := by
  induction s with
  | nil => intro c hc; simp [lstrip] at hc
  | cons c rest ih =>
    intro d hd
    by_cases h : pyIsSpace c
    · exact ih d (by simpa [lstrip, h] using hd)
    · simp only [lstrip, h, if_neg, Bool.false_eq_true, ite_false, List.head?_cons,
        Option.mem_def, Option.some.injEq] at hd
      rw [hd] at h
      simpa using h

theorem lstrip_eq_self {s : List Char} (h : ∀ c ∈ s.head?, pyIsSpace c = false) :
    lstrip s = s := by
  cases s with
  | nil => rfl
  | cons c rest => simp [lstrip, h c (by simp)]

theorem lstrip_idem (s : List Char) : lstrip (lstrip s) = lstrip s :=
  lstrip_eq_self (lstrip_head s)

theorem rstrip_idem (s : List Char) : rstrip (rstrip s) = rstrip s := by
  unfold rstrip
  rw [List.reverse_reverse, lstrip_idem]

theorem head?_of_front {l t : List Char} (h : l <+: t) (hne : l ≠ []) :
    t.head? = l.head? := by
  obtain ⟨u, rfl⟩ := h
  cases l with
  | nil => exact absurd rfl hne
  | cons c l' => rfl

theorem pyStrip_getLast (s : List Char) :
    ∀ c ∈ (pyStrip s).getLast?, pyIsSpace c = false := by
  intro c hc
  have he : (pyStrip s).getLast? = (lstrip (lstrip s).reverse).head? :=
    List.getLast?_reverse (lstrip (lstrip s).reverse)
  exact lstrip_head (lstrip s).reverse c (by rw [← he]; exact hc)

theorem pyStrip_head (s : List Char) :
    ∀ c ∈ (pyStrip s).head?, pyIsSpace c = false := by
  intro c hc
  by_cases h : pyStrip s = []
  · rw [h] at hc; simp at hc
  · have hp : pyStrip s <+: lstrip s := rstrip_front (lstrip s)
    have he : (lstrip s).head? = (pyStrip s).head? := head?_of_front hp h
    exact lstrip_head s c (by rw [he]; exact hc)

theorem rstrip_eq_self {s : List Char} (h : ∀ c ∈ s.getLast?, pyIsSpace c = false) :
    rstrip s = s := by
  unfold rstrip
  rw [lstrip_eq_self, List.reverse_reverse]
  intro c hc
  exact h c (by rwa [← List.head?_reverse])

theorem pyStrip_eq_self {s : List Char}
    (h1 : ∀ c ∈ s.head?, pyIsSpace c = false)
    (h2 : ∀ c ∈ s.getLast?, pyIsSpace c = false) : pyStrip s = s := by
  unfold pyStrip
  rw [lstrip_eq_self h1, rstrip_eq_self h2]

theorem pyStrip_idem (s : List Char) : pyStrip (pyStrip s) = pyStrip s :=
  pyStrip_eq_self (pyStrip_head s) (pyStrip_getLast s)

theorem pyStrip_cleanup (v : List Char) : pyStrip (cleanup v) = cleanup v := by
  simp only [cleanup]
  split
  · exact pyStrip_idem _
  · exact pyStrip_idem v

theorem cleanup_pyStrip (b : List Char) :
    cleanup (pyStrip b) =
      if (pyStrip b).head? = some '[' ∧ (pyStrip b).getLast? = some ']' then
        pyStrip (((pyStrip b).drop 1).dropLast)
      else pyStrip b := by
  simp only [cleanup, pyStrip_idem, Bool.and_eq_true, beq_iff_eq]

/-! ### Properties of `splitStars` -/

theorem splitStars_ne_nil (s : List Char) : splitStars s ≠ [] := by
  induction s with
  | nil => simp [splitStars]
  | cons c rest ih =>
    rw [splitStars.eq_def]
    split
    · simp
    · simp
    · split <;> simp

theorem splitStars_cons_no_star {c : Char} (xs : List Char) (hc : c ≠ '*') :
    splitStars (c :: xs) =
      match splitStars xs with
      | [] => [[c]]
      | f :: fs => (c :: f) :: fs := by
  rw [splitStars.eq_def]
  split
  · simp_all
  · rename_i rest heq
    rw [List.cons.injEq] at heq
    exact absurd heq.1 hc
  · rename_i heq2
    rw [List.cons.injEq] at heq2
    rw [← heq2.1, ← heq2.2]

theorem splitStars_no_star (b : List Char) (hb : '*' ∉ b) : splitStars b = [b] := by
  induction b with
  | nil => rfl
  | cons c rest ih =>
    have hc : c ≠ '*' := fun h => hb (h ▸ List.mem_cons_self c rest)
    rw [splitStars_cons_no_star rest hc,
      ih (fun h => hb (List.mem_cons_of_mem c h))]

theorem splitStars_append_stars (b rest : List Char) (hb : '*' ∉ b) :
    splitStars (b ++ '*' :: '*' :: rest) = b :: splitStars rest := by
  induction b with
  | nil => rfl
  | cons c b' ih =>
    have hc : c ≠ '*' := fun h => hb (h ▸ List.mem_cons_self c b')
    rw [List.cons_append, splitStars_cons_no_star _ hc,
      ih (fun h => hb (List.mem_cons_of_mem c h))]

/-! ### Step lemmas for the fragment loop -/

theorem Sections.set_get (s : Sections) (k : SectionKey) :
    s.set k (s.get k) = s := by
  cases k <;> rfl

theorem Sections.get_set_ne (s : Sections) (k k' : SectionKey) (v : List Char)
    (h : k ≠ k') : (s.set k v).get k' = s.get k' := by
  cases k <;> cases k' <;> first | rfl | exact absurd rfl h

theorem processPart_nil (st : Sections × Option SectionKey) :
    processPart st [] = st := by
  rcases st with ⟨secs, cur⟩
  cases cur <;> rfl

theorem processPart_skip_none (secs : Sections) (b : List Char)
    (hb : anyHeader (pyUpper (pyStrip b)) = false) :
    processPart (secs, none) b = (secs, none) := by
  have h := hb
  simp only [anyHeader, Bool.or_eq_false_iff] at h
  obtain ⟨⟨⟨h1, h2⟩, h3⟩, h4⟩ := h
  simp only [processPart, h1, h2, h3, h4, Bool.false_eq_true, if_false]

theorem processPart_body_fresh (secs : Sections) (k : SectionKey) (b : List Char)
    (hb : anyHeader (pyUpper (pyStrip b)) = false) (hk : secs.get k = []) :
    processPart (secs, some k) b = (secs.set k (pyStrip b), some k) := by
  have h := hb
  simp only [anyHeader, Bool.or_eq_false_iff] at h
  obtain ⟨⟨⟨h1, h2⟩, h3⟩, h4⟩ := h
  simp only [processPart, h1, h2, h3, h4, Bool.false_eq_true, if_false, hb,
    Bool.not_false, Bool.and_true]
  cases he : (pyStrip b).isEmpty with
  | true =>
    have hz : pyStrip b = [] := List.isEmpty_iff.mp he
    have hset : secs.set k [] = secs := by
      rw [← hk]; exact Sections.set_get secs k
    simp [hz, hset]
  | false => simp [he, hk]

theorem processPart_body_app (secs : Sections) (k : SectionKey) (b : List Char)
    (hb : anyHeader (pyUpper (pyStrip b)) = false)
    (hne : pyStrip b ≠ []) (hk : secs.get k ≠ []) :
    processPart (secs, some k) b =
      (secs.set k (secs.get k ++ ' ' :: pyStrip b), some k) := by
  have h := hb
  simp only [anyHeader, Bool.or_eq_false_iff] at h
  obtain ⟨⟨⟨h1, h2⟩, h3⟩, h4⟩ := h
  have he : (pyStrip b).isEmpty = false := by
    cases hq : (pyStrip b).isEmpty
    · rfl
    · exact absurd (List.isEmpty_iff.mp hq) hne
  have hke : (secs.get k).isEmpty = false := by
    cases hq : (secs.get k).isEmpty
    · rfl
    · exact absurd (List.isEmpty_iff.mp hq) hk
  simp only [processPart, h1, h2, h3, h4, Bool.false_eq_true, if_false, hb,
    Bool.not_false, Bool.and_true, he, if_true, hke]

theorem processPart_hdrRefl (secs : Sections) (cur : Option SectionKey) :
    processPart (secs, cur) lblReflU =
      (secs.set .reflection [], some .reflection) := rfl

theorem processPart_hdrDream (secs : Sections) (cur : Option SectionKey) :
    processPart (secs, cur) lblDreamU =
      (secs.set .dream_interpretation [], some .dream_interpretation) := rfl

theorem processPart_hdrMind (secs : Sections) (cur : Option SectionKey) :
    processPart (secs, cur) lblMindU =
      (secs.set .mindset_insight [], some .mindset_insight) := rfl

theorem processPart_hdrStrat (secs : Sections) (cur : Option SectionKey) :
    processPart (secs, cur) lblStratU =
      (secs.set .strategy [], some .strategy) := rfl

theorem processPart_hdrLowRefl (secs : Sections) (cur : Option SectionKey) :
    processPart (secs, cur) "inner reflection:".toList =
      (secs.set .reflection "inner reflection:".toList, some .reflection) := rfl

theorem Sections.set_set (s : Sections) (k : SectionKey) (v w : List Char) :
    (s.set k v).set k w = s.set k w := by
  cases k <;> rfl

theorem processPart_hdr_body_refl (secs : Sections) (cur : Option SectionKey)
    (b : List Char) (hb : anyHeader (pyUpper b) = false) :
    processPart (processPart (secs, cur) lblReflU) b =
      (secs.set .reflection (pyStrip b), some .reflection) := by
  rw [processPart_hdrRefl,
    processPart_body_fresh (secs.set SectionKey.reflection [])
      SectionKey.reflection b (anyHeader_strip hb) rfl,
    Sections.set_set]

theorem processPart_hdr_body_dream (secs : Sections) (cur : Option SectionKey)
    (b : List Char) (hb : anyHeader (pyUpper b) = false) :
    processPart (processPart (secs, cur) lblDreamU) b =
      (secs.set .dream_interpretation (pyStrip b),
        some .dream_interpretation) := by
  rw [processPart_hdrDream,
    processPart_body_fresh (secs.set SectionKey.dream_interpretation [])
      SectionKey.dream_interpretation b (anyHeader_strip hb) rfl,
    Sections.set_set]

theorem processPart_hdr_body_mind (secs : Sections) (cur : Option SectionKey)
    (b : List Char) (hb : anyHeader (pyUpper b) = false) :
    processPart (processPart (secs, cur) lblMindU) b =
      (secs.set .mindset_insight (pyStrip b), some .mindset_insight) := by
  rw [processPart_hdrMind,
    processPart_body_fresh (secs.set SectionKey.mindset_insight [])
      SectionKey.mindset_insight b (anyHeader_strip hb) rfl,
    Sections.set_set]

theorem processPart_hdr_body_strat (secs : Sections) (cur : Option SectionKey)
    (b : List Char) (hb : anyHeader (pyUpper b) = false) :
    processPart (processPart (secs, cur) lblStratU) b =
      (secs.set .strategy (pyStrip b), some .strategy) := by
  rw [processPart_hdrStrat,
    processPart_body_fresh (secs.set SectionKey.strategy [])
      SectionKey.strategy b (anyHeader_strip hb) rfl,
    Sections.set_set]

theorem splitStars_stars (T : List Char) :
    splitStars ('*' :: '*' :: T) = [] :: splitStars T := rfl

/-! ### The association-list rendering agrees with the structural one -/

theorem lookupA_toAssoc (secs : Sections) (k : SectionKey) :
    lookupA (toAssoc secs) (keyName k) = some (secs.get k) := by
  cases k <;> rfl

theorem setA_toAssoc (secs : Sections) (k : SectionKey) (v : List Char) :
    setA (toAssoc secs) (keyName k) v = toAssoc (secs.set k v) := by
  cases k <;> rfl

theorem processPartD_eq (secs : Sections) (cur : Option SectionKey) (p : List Char) :
    processPartD (toAssoc secs, cur.map keyName) p =
      some (toAssoc (processPart (secs, cur) p).1,
        ((processPart (secs, cur) p).2).map keyName) := by
  simp only [processPartD, processPart]
  by_cases h1 : containsSub (pyUpper (pyStrip p)) lblReflU
  · simp [h1, setA_toAssoc]
  by_cases h2 : containsSub (pyUpper (pyStrip p)) lblDreamU
  · simp [h1, h2, setA_toAssoc]
  by_cases h3 : containsSub (pyUpper (pyStrip p)) lblMindU
  · simp [h1, h2, h3, setA_toAssoc]
  by_cases h4 : containsSub (pyUpper (pyStrip p)) lblStratU
  · simp [h1, h2, h3, h4, setA_toAssoc]
  simp only [h1, h2, h3, h4, Bool.false_eq_true, if_false]
  cases cur with
  | none => rfl
  | some k =>
    simp only [Option.map_some']
    by_cases hc : (!(pyStrip p).isEmpty && !anyHeader (pyUpper (pyStrip p))) = true
    · simp only [hc, if_true, lookupA_toAssoc]
      by_cases hke : (secs.get k).isEmpty
      · simp [hke, setA_toAssoc]
      · simp [hke, setA_toAssoc]
    · simp [hc]

theorem foldPartsD_eq (parts : List (List Char)) :
    ∀ (secs : Sections) (cur : Option SectionKey),
    foldPartsD (toAssoc secs, cur.map keyName) parts =
      some (toAssoc (List.foldl processPart (secs, cur) parts).1,
        (List.foldl processPart (secs, cur) parts).2.map keyName) := by
  induction parts with
  | nil => intro secs cur; rfl
  | cons p ps ih =>
    intro secs cur
    rw [List.foldl_cons]
    simp only [foldPartsD]
    rw [processPartD_eq secs cur p]
    have h := ih (processPart (secs, cur) p).1 (processPart (secs, cur) p).2
    simp only [Prod.mk.eta] at h
    exact h

theorem parseResponseChecked_eq (response : List Char) :
    parseResponseChecked response = some (toAssoc (parseResponse response)) := by
  have h := foldPartsD_eq (splitStars response) Sections.init none
  simp only [Option.map_none'] at h
  simp only [parseResponseChecked, parseResponse]
  rw [show toAssoc Sections.init = initAssoc from rfl] at h
  rw [h]
  rfl

theorem foldl_skip_none (parts : List (List Char)) :
    ∀ secs : Sections, (∀ p ∈ parts, anyHeader (pyUpper p) = false) →
    List.foldl processPart (secs, none) parts = (secs, none) := by
  induction parts with
  | nil => intro secs _; rfl
  | cons p ps ih =>
    intro secs h
    rw [List.foldl_cons,
      processPart_skip_none secs p (anyHeader_strip (h p (List.mem_cons_self p ps)))]
    exact ih secs (fun q hq => h q (List.mem_cons_of_mem p hq))

/-! ### The claims -/

/-- Claim C2: for every input string, the mapping returned by
`_parse_response` has exactly the four keys `reflection`,
`dream_interpretation`, `mindset_insight`, `strategy` — none missing, no
other key present — each holding a (possibly empty) string. -/
theorem c2_exactly_four_keys (response : List Char) :
    ∃ m : Assoc, parseResponseChecked response = some m ∧
      m.map Prod.fst =
        ["reflection".toList, "dream_interpretation".toList,
         "mindset_insight".toList, "strategy".toList] :=
  ⟨toAssoc (parseResponse response), parseResponseChecked_eq response, rfl⟩

/-- Claim C3: `_parse_response` terminates normally on every input and
returns a sectioned output; the only fallible operation — the dictionary
read of the continuation branch, a potential `KeyError` — is never reached
with a missing key, so no exception is raised. -/
theorem c3_total_no_error (response : List Char) :
    ∃ out : Assoc, parseResponseChecked response = some out :=
  ⟨toAssoc (parseResponse response), parseResponseChecked_eq response⟩

/-- Claim C8: whenever the accumulated, whitespace-trimmed value of a
section is wrapped in a single leading `[` and a single trailing `]`, the
final clean-up returns that text with exactly one character stripped from
each end and then re-trimmed. -/
theorem c8_bracket_unwrap (v t : List Char)
    (h : pyStrip v = '[' :: (t ++ [']'])) :
    cleanup v = pyStrip t := by
  have hl : ('[' :: (t ++ [']'])).getLast? = some ']' := by
    rw [← List.cons_append]
    exact List.getLast?_concat _
  simp only [cleanup, h]
  rw [if_pos]
  · rw [List.drop_one, List.tail_cons, List.dropLast_concat]
  · simp [hl]

theorem c8_bracket_unwrap_witness :
    pyStrip " [text] ".toList = '[' :: ("text".toList ++ [']']) ∧
    cleanup " [text] ".toList = pyStrip "text".toList :=
  ⟨by decide, c8_bracket_unwrap " [text] ".toList "text".toList (by decide)⟩

/-- Claim C9: every value returned by `_parse_response` carries no leading
and no trailing whitespace: stripping it again changes nothing. -/
theorem c9_outputs_trimmed (response : List Char) :
    pyStrip (parseResponse response).reflection =
        (parseResponse response).reflection ∧
    pyStrip (parseResponse response).dream_interpretation =
        (parseResponse response).dream_interpretation ∧
    pyStrip (parseResponse response).mindset_insight =
        (parseResponse response).mindset_insight ∧
    pyStrip (parseResponse response).strategy =
        (parseResponse response).strategy :=
  ⟨pyStrip_cleanup _, pyStrip_cleanup _, pyStrip_cleanup _, pyStrip_cleanup _⟩

/-- Claim C7: an input none of whose `**`-fragments contains a recognized
header label yields the all-empty mapping; and a leading fragment that
contains no header label (the text before the first marker) is discarded —
it never influences the result. -/
theorem c7_no_header_all_empty :
    (∀ s : List Char, (∀ p ∈ splitStars s, anyHeader (pyUpper p) = false) →
      parseResponse s = ⟨[], [], [], []⟩) ∧
    (∀ pre rest : List Char, '*' ∉ pre → anyHeader (pyUpper pre) = false →
      parseResponse (pre ++ '*' :: '*' :: rest) =
        parseResponse ('*' :: '*' :: rest)) := by
  constructor
  · intro s h
    simp only [parseResponse]
    rw [foldl_skip_none (splitStars s) Sections.init h]
    rfl
  · intro pre rest hstar hhdr
    simp only [parseResponse]
    rw [splitStars_append_stars pre rest hstar,
      show splitStars ('*' :: '*' :: rest) = [] :: splitStars rest from rfl,
      List.foldl_cons, List.foldl_cons,
      processPart_skip_none _ _ (anyHeader_strip hhdr), processPart_nil]

/-- Claim C1 is false as stated: the concrete input below contains all four
correctly labelled, non-empty sections in canonical order, yet the
reflection value is the unwrapped `Feeling calm.`, not the whitespace-
trimmed interposed text `[Feeling calm.]`. -/
theorem c1_counterexample :
    (parseResponse ("**INNER REFLECTION:** [Feeling calm.] **DREAM INTERPRETATION:** No dream shared today. **MINDSET INSIGHT:** Stay grounded. **DAY STRATEGY:** Focus on one task at a time.".toList)).reflection =
      "Feeling calm.".toList ∧
    (parseResponse ("**INNER REFLECTION:** [Feeling calm.] **DREAM INTERPRETATION:** No dream shared today. **MINDSET INSIGHT:** Stay grounded. **DAY STRATEGY:** Focus on one task at a time.".toList)).reflection ≠
      pyStrip " [Feeling calm.] ".toList := by
  decide

/-- Claim C1 (amended): for an input made of the four canonical headers in
canonical order whose interposed bodies are non-empty, contain no `*` and
no header label, every output value equals the whitespace-trimmed
interposed text — except that a trimmed value wrapped in a single leading
`[` and trailing `]` is unwrapped by one character at each end and
re-trimmed.  The claim's concrete scenario is the witness below. -/
theorem c1_canonical_sections (b1 b2 b3 b4 : List Char)
    (s1 : '*' ∉ b1) (s2 : '*' ∉ b2) (s3 : '*' ∉ b3) (s4 : '*' ∉ b4)
    (h1 : anyHeader (pyUpper b1) = false) (h2 : anyHeader (pyUpper b2) = false)
    (h3 : anyHeader (pyUpper b3) = false) (h4 : anyHeader (pyUpper b4) = false)
    (_n1 : pyStrip b1 ≠ []) (_n2 : pyStrip b2 ≠ []) (_n3 : pyStrip b3 ≠ [])
    (_n4 : pyStrip b4 ≠ []) :
    parseResponse ("**INNER REFLECTION:**".toList ++ b1 ++
        "**DREAM INTERPRETATION:**".toList ++ b2 ++
        "**MINDSET INSIGHT:**".toList ++ b3 ++
        "**DAY STRATEGY:**".toList ++ b4) =
      { reflection :=
          if (pyStrip b1).head? = some '[' ∧ (pyStrip b1).getLast? = some ']' then
            pyStrip (((pyStrip b1).drop 1).dropLast)
          else pyStrip b1
        dream_interpretation :=
          if (pyStrip b2).head? = some '[' ∧ (pyStrip b2).getLast? = some ']' then
            pyStrip (((pyStrip b2).drop 1).dropLast)
          else pyStrip b2
        mindset_insight :=
          if (pyStrip b3).head? = some '[' ∧ (pyStrip b3).getLast? = some ']' then
            pyStrip (((pyStrip b3).drop 1).dropLast)
          else pyStrip b3
        strategy :=
          if (pyStrip b4).head? = some '[' ∧ (pyStrip b4).getLast? = some ']' then
            pyStrip (((pyStrip b4).drop 1).dropLast)
          else pyStrip b4 } := by
  have hin : "**INNER REFLECTION:**".toList ++ b1 ++
      "**DREAM INTERPRETATION:**".toList ++ b2 ++
      "**MINDSET INSIGHT:**".toList ++ b3 ++
      "**DAY STRATEGY:**".toList ++ b4 =
      '*' :: '*' :: (lblReflU ++ '*' :: '*' ::
        (b1 ++ '*' :: '*' :: (lblDreamU ++ '*' :: '*' ::
          (b2 ++ '*' :: '*' :: (lblMindU ++ '*' :: '*' ::
            (b3 ++ '*' :: '*' :: (lblStratU ++ '*' :: '*' :: b4))))))) := by
    simp only [List.append_assoc]
    rfl
  rw [hin]
  simp only [parseResponse]
  rw [splitStars_stars,
    splitStars_append_stars lblReflU _ (by decide),
    splitStars_append_stars b1 _ s1,
    splitStars_append_stars lblDreamU _ (by decide),
    splitStars_append_stars b2 _ s2,
    splitStars_append_stars lblMindU _ (by decide),
    splitStars_append_stars b3 _ s3,
    splitStars_append_stars lblStratU _ (by decide),
    splitStars_no_star b4 s4]
  simp only [List.foldl_cons, List.foldl_nil]
  rw [processPart_nil, processPart_hdr_body_refl _ _ b1 h1,
    processPart_hdr_body_dream _ _ b2 h2,
    processPart_hdr_body_mind _ _ b3 h3,
    processPart_hdr_body_strat _ _ b4 h4]
  show Sections.mk (cleanup (pyStrip b1)) (cleanup (pyStrip b2))
    (cleanup (pyStrip b3)) (cleanup (pyStrip b4)) = _
  rw [cleanup_pyStrip b1, cleanup_pyStrip b2, cleanup_pyStrip b3,
    cleanup_pyStrip b4]

theorem c1_canonical_sections_witness :
    parseResponse ("**INNER REFLECTION:**".toList ++ " Feeling calm. ".toList ++
        "**DREAM INTERPRETATION:**".toList ++ " No dream shared today. ".toList ++
        "**MINDSET INSIGHT:**".toList ++ " Stay grounded. ".toList ++
        "**DAY STRATEGY:**".toList ++ " Focus on one task at a time.".toList) =
      { reflection := "Feeling calm.".toList
        dream_interpretation := "No dream shared today.".toList
        mindset_insight := "Stay grounded.".toList
        strategy := "Focus on one task at a time.".toList } :=
  c1_canonical_sections " Feeling calm. ".toList " No dream shared today. ".toList
    " Stay grounded. ".toList " Focus on one task at a time.".toList
    (by decide) (by decide) (by decide) (by decide)
    (by decide) (by decide) (by decide) (by decide)
    (by decide) (by decide) (by decide) (by decide)

/-- Claim C4 is false as stated: a lower-case header is recognized and the
content is assigned to its section, but the header text is not stripped
from the fragment — it remains in the output value. -/
theorem c4_counterexample :
    (parseResponse "**inner reflection:** hello".toList).reflection =
      "inner reflection: hello".toList ∧
    (parseResponse "**inner reflection:** hello".toList).reflection ≠
      "hello".toList := by
  decide

/-- Claim C4 (amended): a lower-case header fragment is recognized
case-insensitively and the following content accrues to its section, but
the header text is stripped only in its fully-uppercase and title-case
forms; the lower-case header text itself remains at the front of the
section value. -/
theorem c4_lowercase_header (b : List Char) (hs : '*' ∉ b)
    (hh : anyHeader (pyUpper b) = false) (hn : pyStrip b ≠ []) :
    (parseResponse ("**inner reflection:**".toList ++ b)).reflection =
      "inner reflection:".toList ++ ' ' :: pyStrip b := by
  have hin : "**inner reflection:**".toList ++ b =
      '*' :: '*' :: ("inner reflection:".toList ++ '*' :: '*' :: b) := rfl
  rw [hin]
  simp only [parseResponse]
  rw [splitStars_stars,
    splitStars_append_stars "inner reflection:".toList _ (by decide),
    splitStars_no_star b hs]
  simp only [List.foldl_cons, List.foldl_nil]
  rw [processPart_nil, processPart_hdrLowRefl]
  rw [processPart_body_app
    (Sections.init.set SectionKey.reflection "inner reflection:".toList)
    SectionKey.reflection b (anyHeader_strip hh) hn (by decide)]
  show cleanup ("inner reflection:".toList ++ ' ' :: pyStrip b) = _
  have hstr : pyStrip ("inner reflection:".toList ++ ' ' :: pyStrip b) =
      "inner reflection:".toList ++ ' ' :: pyStrip b := by
    apply pyStrip_eq_self
    · intro c hc
      have hh2 : ("inner reflection:".toList ++
          ' ' :: pyStrip b).head? = some 'i' := rfl
      rw [hh2] at hc
      have hci : 'i' = c := by simpa using hc
      rw [← hci]
      decide
    · intro c hc
      obtain ⟨d, hd⟩ :=
        Option.isSome_iff_exists.mp (( List.getLast?_isSome).mpr hn)
      have hlast : ("inner reflection:".toList ++
          ' ' :: pyStrip b).getLast? = some d := by
        rw [ List.getLast?_append,
          show (' ' :: pyStrip b) = [' '] ++ pyStrip b from rfl,
          List.getLast?_append, hd]
        rfl
      rw [hlast] at hc
      have hcd : d = c := by simpa using hc
      rw [← hcd]
      exact pyStrip_getLast b d (by simp [hd])
  simp only [cleanup, hstr]
  rw [if_neg]
  intro hcond
  have hh2 : ("inner reflection:".toList ++
      ' ' :: pyStrip b).head? = some 'i' := rfl
  rw [hh2] at hcond
  simp at hcond

theorem c4_lowercase_header_witness :
    (parseResponse ("**inner reflection:**".toList ++ " hello".toList)).reflection =
      "inner reflection: hello".toList :=
  c4_lowercase_header " hello".toList (by decide) (by decide) (by decide)

/-- Claim C5 is false as stated: when the same header appears twice, the
content accumulated under its first occurrence (` A `) is discarded; the
final value (`B`) comes from the second occurrence alone. -/
theorem c5_counterexample :
    (parseResponse "**INNER REFLECTION:** A **INNER REFLECTION:** B".toList).reflection =
      "B".toList ∧
    containsSub
      (parseResponse "**INNER REFLECTION:** A **INNER REFLECTION:** B".toList).reflection
      ['A'] = false := by
  decide

/-- Claim C5 (amended): every occurrence of a recognized header re-points
the current section and resets that section's content to the remainder of
the header fragment; content accumulated under an earlier occurrence of
the same header is discarded, so the final value is computed from the text
after the last occurrence alone. -/
theorem c5_duplicate_header_resets (b1 b2 : List Char)
    (s1 : '*' ∉ b1) (s2 : '*' ∉ b2)
    (h1 : anyHeader (pyUpper b1) = false)
    (h2 : anyHeader (pyUpper b2) = false) :
    (parseResponse ("**INNER REFLECTION:**".toList ++ b1 ++
        "**INNER REFLECTION:**".toList ++ b2)).reflection =
      (if (pyStrip b2).head? = some '[' ∧ (pyStrip b2).getLast? = some ']' then
        pyStrip (((pyStrip b2).drop 1).dropLast)
      else pyStrip b2) := by
  have hin : "**INNER REFLECTION:**".toList ++ b1 ++
      "**INNER REFLECTION:**".toList ++ b2 =
      '*' :: '*' :: (lblReflU ++ '*' :: '*' ::
        (b1 ++ '*' :: '*' :: (lblReflU ++ '*' :: '*' :: b2))) := by
    simp only [List.append_assoc]
    rfl
  rw [hin]
  simp only [parseResponse]
  rw [splitStars_stars,
    splitStars_append_stars lblReflU _ (by decide),
    splitStars_append_stars b1 _ s1,
    splitStars_append_stars lblReflU _ (by decide),
    splitStars_no_star b2 s2]
  simp only [List.foldl_cons, List.foldl_nil]
  rw [processPart_nil, processPart_hdr_body_refl _ _ b1 h1,
    processPart_hdr_body_refl _ _ b2 h2]
  show cleanup (pyStrip b2) = _
  exact cleanup_pyStrip b2

theorem c5_duplicate_header_resets_witness :
    (parseResponse ("**INNER REFLECTION:**".toList ++ " A ".toList ++
        "**INNER REFLECTION:**".toList ++ " B ".toList)).reflection =
      "B".toList :=
  c5_duplicate_header_resets " A ".toList " B ".toList
    (by decide) (by decide) (by decide) (by decide)

/-- Claim C6: with the four headers in reversed order, each section still
receives exactly the (cleaned-up) text that follows its own header and
precedes the next recognized header; the key-to-content assignment is
independent of header order. -/
theorem c6_reversed_order (bS bM bD bR : List Char)
    (sS : '*' ∉ bS) (sM : '*' ∉ bM) (sD : '*' ∉ bD) (sR : '*' ∉ bR)
    (hS : anyHeader (pyUpper bS) = false) (hM : anyHeader (pyUpper bM) = false)
    (hD : anyHeader (pyUpper bD) = false)
    (hR : anyHeader (pyUpper bR) = false) :
    parseResponse ("**DAY STRATEGY:**".toList ++ bS ++
        "**MINDSET INSIGHT:**".toList ++ bM ++
        "**DREAM INTERPRETATION:**".toList ++ bD ++
        "**INNER REFLECTION:**".toList ++ bR) =
      { reflection :=
          if (pyStrip bR).head? = some '[' ∧ (pyStrip bR).getLast? = some ']' then
            pyStrip (((pyStrip bR).drop 1).dropLast)
          else pyStrip bR
        dream_interpretation :=
          if (pyStrip bD).head? = some '[' ∧ (pyStrip bD).getLast? = some ']' then
            pyStrip (((pyStrip bD).drop 1).dropLast)
          else pyStrip bD
        mindset_insight :=
          if (pyStrip bM).head? = some '[' ∧ (pyStrip bM).getLast? = some ']' then
            pyStrip (((pyStrip bM).drop 1).dropLast)
          else pyStrip bM
        strategy :=
          if (pyStrip bS).head? = some '[' ∧ (pyStrip bS).getLast? = some ']' then
            pyStrip (((pyStrip bS).drop 1).dropLast)
          else pyStrip bS } := by
  have hin : "**DAY STRATEGY:**".toList ++ bS ++
      "**MINDSET INSIGHT:**".toList ++ bM ++
      "**DREAM INTERPRETATION:**".toList ++ bD ++
      "**INNER REFLECTION:**".toList ++ bR =
      '*' :: '*' :: (lblStratU ++ '*' :: '*' ::
        (bS ++ '*' :: '*' :: (lblMindU ++ '*' :: '*' ::
          (bM ++ '*' :: '*' :: (lblDreamU ++ '*' :: '*' ::
            (bD ++ '*' :: '*' :: (lblReflU ++ '*' :: '*' :: bR))))))) := by
    simp only [List.append_assoc]
    rfl
  rw [hin]
  simp only [parseResponse]
  rw [splitStars_stars,
    splitStars_append_stars lblStratU _ (by decide),
    splitStars_append_stars bS _ sS,
    splitStars_append_stars lblMindU _ (by decide),
    splitStars_append_stars bM _ sM,
    splitStars_append_stars lblDreamU _ (by decide),
    splitStars_append_stars bD _ sD,
    splitStars_append_stars lblReflU _ (by decide),
    splitStars_no_star bR sR]
  simp only [List.foldl_cons, List.foldl_nil]
  rw [processPart_nil, processPart_hdr_body_strat _ _ bS hS,
    processPart_hdr_body_mind _ _ bM hM,
    processPart_hdr_body_dream _ _ bD hD,
    processPart_hdr_body_refl _ _ bR hR]
  show Sections.mk (cleanup (pyStrip bR)) (cleanup (pyStrip bD))
    (cleanup (pyStrip bM)) (cleanup (pyStrip bS)) = _
  rw [cleanup_pyStrip bR, cleanup_pyStrip bD, cleanup_pyStrip bM,
    cleanup_pyStrip bS]

theorem c6_reversed_order_witness :
    parseResponse ("**DAY STRATEGY:**".toList ++ " Focus on one task. ".toList ++
        "**MINDSET INSIGHT:**".toList ++ " Stay grounded. ".toList ++
        "**DREAM INTERPRETATION:**".toList ++ " No dream today. ".toList ++
        "**INNER REFLECTION:**".toList ++ " Feeling calm. ".toList) =
      { reflection := "Feeling calm.".toList
        dream_interpretation := "No dream today.".toList
        mindset_insight := "Stay grounded.".toList
        strategy := "Focus on one task.".toList } :=
  c6_reversed_order " Focus on one task. ".toList " Stay grounded. ".toList
    " No dream today. ".toList " Feeling calm. ".toList
    (by decide) (by decide) (by decide) (by decide)
    (by decide) (by decide) (by decide) (by decide)

/-- Claim C10: header recognition is by substring containment on the
uppercased, stripped fragment, not whole-fragment comparison: any fragment
whose uppercased form contains a label — even mid-text — becomes a header
fragment, the current-section pointer switches to the first matching label
in the fixed test order (INNER REFLECTION:, DREAM INTERPRETATION:,
MINDSET INSIGHT:, DAY STRATEGY:), and such a fragment is never appended to
the previously active section. -/
theorem c10_substring_first_match (st : Sections × Option SectionKey)
    (p : List Char)
    (h : (containsSub (pyUpper (pyStrip p)) lblReflU ||
          containsSub (pyUpper (pyStrip p)) lblDreamU ||
          containsSub (pyUpper (pyStrip p)) lblMindU ||
          containsSub (pyUpper (pyStrip p)) lblStratU) = true) :
    (processPart st p).2 = some
      (if containsSub (pyUpper (pyStrip p)) lblReflU then
        SectionKey.reflection
       else if containsSub (pyUpper (pyStrip p)) lblDreamU then
        SectionKey.dream_interpretation
       else if containsSub (pyUpper (pyStrip p)) lblMindU then
        SectionKey.mindset_insight
       else SectionKey.strategy) ∧
    (∀ k : SectionKey, st.2 = some k → (processPart st p).2 ≠ some k →
      (processPart st p).1.get k = st.1.get k) := by
  by_cases h1 : containsSub (pyUpper (pyStrip p)) lblReflU
  · refine ⟨by simp [processPart, h1], ?_⟩
    intro k hk hne
    have hkne : SectionKey.reflection ≠ k := by
      intro he
      exact hne (by simp [processPart, h1, he])
    simp only [processPart, h1, if_true]
    exact Sections.get_set_ne st.1 _ k _ hkne
  by_cases h2 : containsSub (pyUpper (pyStrip p)) lblDreamU
  · refine ⟨by simp [processPart, h1, h2], ?_⟩
    intro k hk hne
    have hkne : SectionKey.dream_interpretation ≠ k := by
      intro he
      exact hne (by simp [processPart, h1, h2, he])
    simp only [processPart, h1, h2, Bool.false_eq_true, if_false, if_true]
    exact Sections.get_set_ne st.1 _ k _ hkne
  by_cases h3 : containsSub (pyUpper (pyStrip p)) lblMindU
  · refine ⟨by simp [processPart, h1, h2, h3], ?_⟩
    intro k hk hne
    have hkne : SectionKey.mindset_insight ≠ k := by
      intro he
      exact hne (by simp [processPart, h1, h2, h3, he])
    simp only [processPart, h1, h2, h3, Bool.false_eq_true, if_false, if_true]
    exact Sections.get_set_ne st.1 _ k _ hkne
  have h4 : containsSub (pyUpper (pyStrip p)) lblStratU := by
    simpa [h1, h2, h3] using h
  refine ⟨by simp [processPart, h1, h2, h3, h4], ?_⟩
  intro k hk hne
  have hkne : SectionKey.strategy ≠ k := by
    intro he
    exact hne (by simp [processPart, h1, h2, h3, h4, he])
  simp only [processPart, h1, h2, h3, h4, Bool.false_eq_true, if_false, if_true]
  exact Sections.get_set_ne st.1 _ k _ hkne

theorem c10_substring_first_match_witness :
    ((containsSub (pyUpper (pyStrip "note the DAY STRATEGY: mid-sentence".toList)) lblReflU ||
      containsSub (pyUpper (pyStrip "note the DAY STRATEGY: mid-sentence".toList)) lblDreamU ||
      containsSub (pyUpper (pyStrip "note the DAY STRATEGY: mid-sentence".toList)) lblMindU ||
      containsSub (pyUpper (pyStrip "note the DAY STRATEGY: mid-sentence".toList)) lblStratU) = true) ∧
    ((processPart ((⟨"prior".toList, [], [], []⟩ : Sections),
        some SectionKey.reflection) "note the DAY STRATEGY: mid-sentence".toList).2 =
      some
        (if containsSub (pyUpper (pyStrip "note the DAY STRATEGY: mid-sentence".toList)) lblReflU then
          SectionKey.reflection
         else if containsSub (pyUpper (pyStrip "note the DAY STRATEGY: mid-sentence".toList)) lblDreamU then
          SectionKey.dream_interpretation
         else if containsSub (pyUpper (pyStrip "note the DAY STRATEGY: mid-sentence".toList)) lblMindU then
          SectionKey.mindset_insight
         else SectionKey.strategy) ∧
     (∀ k : SectionKey,
        ((⟨"prior".toList, [], [], []⟩ : Sections),
          some SectionKey.reflection).2 = some k →
        (processPart ((⟨"prior".toList, [], [], []⟩ : Sections),
          some SectionKey.reflection) "note the DAY STRATEGY: mid-sentence".toList).2 ≠ some k →
        (processPart ((⟨"prior".toList, [], [], []⟩ : Sections),
          some SectionKey.reflection) "note the DAY STRATEGY: mid-sentence".toList).1.get k =
          ((⟨"prior".toList, [], [], []⟩ : Sections),
            some SectionKey.reflection).1.get k)) :=
  ⟨by decide,
   c10_substring_first_match
     ((⟨"prior".toList, [], [], []⟩ : Sections), some SectionKey.reflection)
     "note the DAY STRATEGY: mid-sentence".toList (by decide)⟩

theorem c7_no_header_all_empty_witness :
    (∀ p ∈ splitStars "no headers here ** still none".toList,
      anyHeader (pyUpper p) = false) ∧
    parseResponse "no headers here ** still none".toList = ⟨[], [], [], []⟩ ∧
    ('*' ∉ "junk before ".toList) ∧
    parseResponse
        ("junk before ".toList ++ '*' :: '*' :: "DAY STRATEGY:** focus".toList) =
      parseResponse ('*' :: '*' :: "DAY STRATEGY:** focus".toList) :=
  ⟨by decide, c7_no_header_all_empty.1 _ (by decide), by decide,
   c7_no_header_all_empty.2 _ _ (by decide) (by decide)⟩

end Sectionizer
